import Mathlib

/-!
Shallow embedding of `src/solana_fee_report.js`: a Solana priority-fee
reporting script.  Numbers are modelled as exact rationals; the JavaScript
values `undefined` and `NaN`, which arise from out-of-bounds array indexing
and from `0/0`, are modelled explicitly by the `JsVal` type.  Fallible
external collaborators (RPC block source, price oracle, storage sink) are
modelled as oracle functions supplied in an environment.
-/

namespace SolanaFeeReport

/-- A JavaScript numeric value as it flows through the script's statistics:
an actual (rational) number, `NaN`, `undefined` (the result of reading an
array out of bounds), or a signed infinity (the result of dividing a
non-zero number by zero). -/
inductive JsVal where
  | num (q : ℚ)
  | nan
  | undefined
  | inf
  | ninf
deriving DecidableEq, Repr

/-- JavaScript `+` on the values that can appear here: `undefined`
in an arithmetic context converts to `NaN`, and `NaN` is absorbing. -/
def jsAdd : JsVal → JsVal → JsVal
  | .num a, .num b => .num (a + b)
  | .num _, .inf => .inf
  | .num _, .ninf => .ninf
  | .inf, .num _ => .inf
  | .ninf, .num _ => .ninf
  | .inf, .inf => .inf
  | .ninf, .ninf => .ninf
  | .inf, .ninf => .nan
  | .ninf, .inf => .nan
  | _, _ => .nan

/-- JavaScript `/` on the values that can appear here: `0/0` is `NaN`,
a non-zero number divided by zero is a signed infinity, `undefined`
converts to `NaN`, and `NaN` is absorbing. -/
def jsDiv : JsVal → JsVal → JsVal
  | .num a, .num b =>
      if b = 0 then
        if a = 0 then .nan
        else if a > 0 then .inf else .ninf
      else .num (a / b)
  | .num _, .inf => .num 0
  | .num _, .ninf => .num 0
  | .inf, .num b => if b < 0 then .ninf else .inf
  | .ninf, .num b => if b < 0 then .inf else .ninf
  | _, _ => .nan

/-- JavaScript array indexing `arr[i]` with an integer index: the element
when `0 ≤ i < arr.length`, `undefined` otherwise. -/
def jsIndex (l : List ℚ) (i : ℤ) : JsVal :=
  if 0 ≤ i then
    match l.get? i.toNat with
    | some v => .num v
    | none => .undefined
  else .undefined

/-- `LAMPORTS_PER_SOL` from `@solana/web3.js`. -/
def LAMPORTS_PER_SOL : ℚ := 1000000000

/-- `VOTE_PROGRAM_ID` (line 118). -/
def VOTE_PROGRAM_ID : String := "Vote111111111111111111111111111111111111111"

/-- `STAKE_PROGRAM_ID` (line 119). -/
def STAKE_PROGRAM_ID : String := "Stake11111111111111111111111111111111111111"

/-- `tx.meta`: the fee (lamports) and the compute units consumed, each
possibly `undefined`. -/
structure TxMeta where
  fee : Option ℚ
  computeUnitsConsumed : Option ℚ
deriving DecidableEq, Repr

/-- A transaction as the script reads it: the account-key list
(`none` models an absent, null, or non-array `accountKeys`, the shapes the
classifier guards against) and the optional metadata object. -/
structure Transaction where
  accountKeys : Option (List String)
  meta : Option TxMeta
deriving DecidableEq, Repr

/-- `isVotingTransaction` (lines 117-135): true iff some account key equals
the vote or stake program id.  The `none` branch models both the
`!accountKeys || !Array.isArray(accountKeys)` guard and the surrounding
`try`/`catch`, all of which return `false`. -/
def isVotingTransaction (transaction : Transaction) : Bool :=
  match transaction.accountKeys with
  | none => false
  | some accountKeys =>
      accountKeys.any fun account =>
        account = VOTE_PROGRAM_ID || account = STAKE_PROGRAM_ID

/-- `calculatePercentile` (lines 138-142): 0 on the empty array, otherwise
the element at `Math.max(0, ceil((percentile/100)*length) - 1)`; an index
past the end reads `undefined`, as in JavaScript. -/
def calculatePercentile (sortedArray : List ℚ) (percentile : ℚ) : JsVal :=
  if sortedArray.length = 0 then .num 0
  else jsIndex sortedArray (max 0 (⌈percentile / 100 * sortedArray.length⌉ - 1))

/-- `arr.sort((a, b) => a - b)`: ascending numeric sort (stable; modelled
by insertion sort, which is also stable). -/
def sortAsc (l : List ℚ) : List ℚ :=
  l.insertionSort (· ≤ ·)

/-- `sortedFees[sortedFees.length - 1]` (line 291). -/
def maxFeeOf (fees : List ℚ) : JsVal :=
  jsIndex (sortAsc fees) ((sortAsc fees).length - 1)

/-- `sortedFees.reduce((sum, fee) => sum + fee, 0) / sortedFees.length`
(line 292). -/
def averageFeeOf (fees : List ℚ) : JsVal :=
  jsDiv (.num (sortAsc fees).sum) (.num (sortAsc fees).length)

/-- The median of the fee series (lines 293-296): mean of the two central
elements for even length, middle element for odd length. -/
def medianFeeOf (fees : List ℚ) : JsVal :=
  let sortedFees := sortAsc fees
  if sortedFees.length % 2 = 0 then
    jsDiv
      (jsAdd (jsIndex sortedFees ((sortedFees.length : ℤ) / 2 - 1))
             (jsIndex sortedFees ((sortedFees.length : ℤ) / 2)))
      (.num 2)
  else jsIndex sortedFees ((sortedFees.length : ℤ) / 2)

/-- `calculatePercentile(sortedFees, 95)` (line 297). -/
def percentile95FeeOf (fees : List ℚ) : JsVal :=
  calculatePercentile (sortAsc fees) 95

/-- `sortedComputeUnits[sortedComputeUnits.length - 1]` (line 300); on an
empty series this reads index `-1`, i.e. `undefined`. -/
def maxCUOf (computeUnits : List ℚ) : JsVal :=
  jsIndex (sortAsc computeUnits) ((sortAsc computeUnits).length - 1)

/-- `computeUnits.reduce((sum, cu) => sum + cu, 0) / computeUnits.length`
(line 301); on an empty series this is `0/0`, i.e. `NaN`. -/
def averageCUOf (computeUnits : List ℚ) : JsVal :=
  jsDiv (.num computeUnits.sum) (.num computeUnits.length)

/-- The median of the compute-unit series (lines 302-305); the even branch
on an empty series adds two `undefined` reads, giving `NaN`. -/
def medianCUOf (computeUnits : List ℚ) : JsVal :=
  let sortedComputeUnits := sortAsc computeUnits
  if computeUnits.length % 2 = 0 then
    jsDiv
      (jsAdd (jsIndex sortedComputeUnits ((computeUnits.length : ℤ) / 2 - 1))
             (jsIndex sortedComputeUnits ((computeUnits.length : ℤ) / 2)))
      (.num 2)
  else jsIndex sortedComputeUnits ((computeUnits.length : ℤ) / 2)

/-- The per-window accumulators of `analyzePriorityFees`
(lines 245-247): `priorityFees`, `computeUnits`,
`totalNonVotingTransactions`. -/
structure AccState where
  priorityFees : List ℚ
  computeUnits : List ℚ
  totalNonVotingTransactions : ℕ
deriving DecidableEq, Repr

/-- The body of `block.transactions.forEach` (lines 262-276): a non-voting
transaction with a defined, positive (in SOL) fee is appended to the fee
series and counted; a non-voting transaction with defined compute units is
appended to the compute-unit series; the two conditions are independent. -/
def processTx (st : AccState) (tx : Transaction) : AccState :=
  if isVotingTransaction tx then st
  else
    let st1 :=
      match tx.meta with
      | some meta =>
          match meta.fee with
          | some fee =>
              let feeInSOL := fee / LAMPORTS_PER_SOL
              if feeInSOL > 0 then
                { st with
                  priorityFees := st.priorityFees ++ [feeInSOL]
                  totalNonVotingTransactions := st.totalNonVotingTransactions + 1 }
              else st
          | none => st
      | none => st
    match tx.meta with
    | some meta =>
        match meta.computeUnitsConsumed with
        | some cu => { st1 with computeUnits := st1.computeUnits ++ [cu] }
        | none => st1
    | none => st1

/-- One iteration of the inner slot loop (lines 249-277) at a given slot:
an absent block (or one without transactions) contributes nothing,
otherwise each of its transactions is processed in order. -/
def scanSlot (getBlock : ℤ → Option (List Transaction)) (slot : ℤ)
    (st : AccState) : AccState :=
  match getBlock slot with
  | none => st
  | some txs => txs.foldl processTx st

/-- The inner slot loop for one batch (lines 249-283): `j` runs from `0` to
`batchSize - 1` and the slot fetched is `latestSlot - i - j`. -/
def scanWindow (getBlock : ℤ → Option (List Transaction)) (latestSlot : ℤ)
    (i : ℕ) (batchSize : ℕ) : AccState :=
  (List.range batchSize).foldl
    (fun st j => scanSlot getBlock (latestSlot - i - j) st) ⟨[], [], 0⟩

/-- The emission gate (line 285): a window is skipped iff its fee series is
empty; the compute-unit series is not consulted. -/
def skipEmission (st : AccState) : Bool :=
  st.priorityFees.isEmpty

/-- `blockTime = 0.4` (line 307). -/
def blockTime : ℚ := 2 / 5

/-- The summary record assembled for one batch and handed to `printReport`
and `saveData` (lines 290-339), with the persisted column set of
`saveData`. -/
structure Summary where
  startSlot : ℤ
  endSlot : ℤ
  totalTransactions : ℕ
  averageTPS : JsVal
  maxFee : JsVal
  averageFee : JsVal
  medianFee : JsVal
  percentile95Fee : JsVal
  maxCU : JsVal
  averageCU : JsVal
  medianCU : JsVal
  solPriceUSD : ℚ
deriving DecidableEq, Repr

/-- Builds the summary for one batch (lines 290-339): statistics of the two
accumulated series, `averageTPS = count / (batchSize * blockTime)`
(lines 307-309), and the recorded window
`[batchStartSlot, batchStartSlot - (batchSize - 1)]` (lines 312-313). -/
def mkSummary (batchStartSlot : ℤ) (batchSize : ℕ) (st : AccState)
    (solPriceUSD : ℚ) : Summary :=
  { startSlot := batchStartSlot
    endSlot := batchStartSlot - ((batchSize : ℤ) - 1)
    totalTransactions := st.totalNonVotingTransactions
    averageTPS := jsDiv (.num st.totalNonVotingTransactions)
      (.num ((batchSize : ℚ) * blockTime))
    maxFee := maxFeeOf st.priorityFees
    averageFee := averageFeeOf st.priorityFees
    medianFee := medianFeeOf st.priorityFees
    percentile95Fee := percentile95FeeOf st.priorityFees
    maxCU := maxCUOf st.computeUnits
    averageCU := averageCUOf st.computeUnits
    medianCU := medianCUOf st.computeUnits
    solPriceUSD := solPriceUSD }

/-- The storage format selected by `--storage` (`db` or `csv`). -/
inductive Storage where
  | db
  | csv
deriving DecidableEq, Repr

/-- The external collaborators of one run: the chain head observed once at
start (line 232), the price oracle's answer for each batch iteration
(`none` models the `catch` branch of `getSolanaPriceInUSD` returning
`null`), and the block source (`none` models `!block || !block.transactions`). -/
structure Env where
  latestSlot : ℤ
  price : ℕ → Option ℚ
  getBlock : ℤ → Option (List Transaction)

/-- `if (!solPriceUSD)` (line 240): the price is unusable when the fetch
failed (`null`) or returned a falsy number (`0`). -/
def priceUsable : Option ℚ → Bool
  | none => false
  | some q => q ≠ 0

/-- How a run ends: all batch iterations exhausted; the early `return` on
an unusable price (lines 240-243); or an exception thrown by a failed
synchronous CSV append, caught by the outer handler (lines 346-348). -/
inductive Halt where
  | normal
  | priceFailure
  | sinkException
deriving DecidableEq, Repr

/-- The observable outcome of a run: the summaries handed to `saveData`,
tagged with their batch iteration index, and how the run ended. -/
structure RunResult where
  processed : List (ℕ × Summary)
  halt : Halt
deriving DecidableEq, Repr

/-- The outer batch loop of `analyzePriorityFees` (lines 238-343), as a
recursion over the remaining batch iterations.  `k` is the iteration index
(so the loop's `i` is `k * batchSize`), `batchStartSlot` the recorded
window start (advanced only on line 341, i.e. only when a summary is
emitted), and `wi` the index of the next sink write.  The `db` sink's
write outcome is reported through an asynchronous callback that only logs
(lines 212-219), so it cannot affect control flow; a failing `csv`
append (line 223) throws, which the outer `catch` turns into run
termination. -/
def runFrom (env : Env) (storage : Storage) (sinkOk : ℕ → Bool)
    (batchSize : ℕ) : ℕ → ℕ → ℤ → ℕ → RunResult
  | 0, _, _, _ => ⟨[], .normal⟩
  | fuel + 1, k, batchStartSlot, wi =>
    if priceUsable (env.price k) = false then ⟨[], .priceFailure⟩
    else
      let st := scanWindow env.getBlock env.latestSlot (k * batchSize) batchSize
      if skipEmission st then
        runFrom env storage sinkOk batchSize fuel (k + 1) batchStartSlot wi
      else
        let s := mkSummary batchStartSlot batchSize st ((env.price k).getD 0)
        match storage with
        | .db =>
            let r := runFrom env storage sinkOk batchSize fuel (k + 1)
              (batchStartSlot - batchSize) (wi + 1)
            ⟨(k, s) :: r.processed, r.halt⟩
        | .csv =>
            if sinkOk wi then
              let r := runFrom env storage sinkOk batchSize fuel (k + 1)
                (batchStartSlot - batchSize) (wi + 1)
              ⟨(k, s) :: r.processed, r.halt⟩
            else ⟨[(k, s)], .sinkException⟩

/-- The run configuration taken from the command line: `numSamples` and
`batchSize` (validated to `1 ≤ batchSize ≤ 100`). -/
structure Config where
  numSamples : ℕ
  batchSize : ℕ
deriving DecidableEq, Repr

/-- `analyzePriorityFees(numSamples, batchSize, delay)` (lines 229-349):
the loop starts at iteration 0 with `batchStartSlot = latestSlot`
(line 235).  The inter-fetch delay does not affect any computed value and
is not modelled. -/
def run (cfg : Config) (env : Env) (storage : Storage)
    (sinkOk : ℕ → Bool) : RunResult :=
  runFrom env storage sinkOk cfg.batchSize cfg.numSamples 0 env.latestSlot 0

/-- The highest slot actually fetched for batch iteration `k`: the inner
loop reads `latestSlot - i - j` with `i = k * batchSize` (line 250). -/
def fetchedStartSlot (latestSlot : ℤ) (batchSize k : ℕ) : ℤ :=
  latestSlot - k * batchSize

/-- The lowest slot actually fetched for batch iteration `k`
(`j = batchSize - 1`). -/
def fetchedEndSlot (latestSlot : ℤ) (batchSize k : ℕ) : ℤ :=
  fetchedStartSlot latestSlot batchSize k - ((batchSize : ℤ) - 1)

/-! ### Concrete fixtures used by witnesses and counterexamples -/

/-- A non-voting transaction paying 5000 lamports and consuming 200
compute units. -/
def feeTx : Transaction :=
  { accountKeys := some ["abc"]
    meta := some { fee := some 5000, computeUnitsConsumed := some 200 } }

/-- A voting transaction (vote program id among its account keys) that
nevertheless pays a fee and consumes compute units. -/
def voteTx : Transaction :=
  { accountKeys := some [VOTE_PROGRAM_ID]
    meta := some { fee := some 5000, computeUnitsConsumed := some 100 } }

/-- Environment in which the first window (slots 100-99) yields no fees
and the second window finds `feeTx` at slot 98. -/
def env1 : Env :=
  { latestSlot := 100
    price := fun _ => some 20
    getBlock := fun s => if s = 98 then some [feeTx] else none }

/-- Two batches of two slots each. -/
def cfg1 : Config := { numSamples := 2, batchSize := 2 }

/-- Environment in which every slot holds `feeTx`, so every window emits a
summary. -/
def env2 : Env :=
  { latestSlot := 100
    price := fun _ => some 20
    getBlock := fun _ => some [feeTx] }

/-- Two batches of one slot each. -/
def cfg2 : Config := { numSamples := 2, batchSize := 1 }

/-- Environment whose price oracle fails from the second batch iteration
on, while every slot holds `feeTx`. -/
def env3 : Env :=
  { latestSlot := 100
    price := fun k => if k = 0 then some 20 else none
    getBlock := fun _ => some [feeTx] }

/-! ### Theorems -/

set_option maxRecDepth 40000

/-- C10: for every transaction value whose account-key list is absent,
malformed or not an array (all modelled by `accountKeys = none`, the
shapes on which the classifier's guard and its `catch` both return
`false`), `isVotingTransaction` classifies it as not voting; the
classifier is a total function, so no failure escapes it. -/
theorem isVotingTransaction_fail_open (tx : Transaction)
    (h : tx.accountKeys = none) : isVotingTransaction tx = false := by
  simp [isVotingTransaction, h]

theorem isVotingTransaction_fail_open_witness :
    isVotingTransaction { accountKeys := none, meta := none } = false :=
  isVotingTransaction_fail_open { accountKeys := none, meta := none } rfl

/-- C7: a transaction whose account-key list contains the vote program id
or the stake program id leaves the accumulator state untouched: it
contributes to neither the fee series, nor the compute-unit series, nor
the transaction count, regardless of its fee or compute-unit values. -/
theorem voting_tx_contributes_nothing (st : AccState) (tx : Transaction)
    (ks : List String) (hks : tx.accountKeys = some ks)
    (hmem : VOTE_PROGRAM_ID ∈ ks ∨ STAKE_PROGRAM_ID ∈ ks) :
    processTx st tx = st := by
  have hvote : isVotingTransaction tx = true := by
    rw [isVotingTransaction, hks]
    rw [List.any_eq_true]
    rcases hmem with h | h
    · exact ⟨VOTE_PROGRAM_ID, h, by simp⟩
    · exact ⟨STAKE_PROGRAM_ID, h, by simp⟩
  simp [processTx, hvote]

theorem voting_tx_contributes_nothing_witness :
    processTx ⟨[], [], 0⟩ voteTx = ⟨[], [], 0⟩ :=
  voting_tx_contributes_nothing ⟨[], [], 0⟩ voteTx [VOTE_PROGRAM_ID] rfl
    (Or.inl (List.mem_singleton.mpr rfl))

/-- C8: for a non-voting transaction, (a) a fee of `0` contributes neither
to the fee series nor to the economic-transaction count, while a defined
compute-units field still appends to the compute-unit series; (b) an
undefined fee with a defined compute-units field updates only the
compute-unit series. -/
theorem zero_or_undefined_fee_asymmetry (st : AccState) (tx : Transaction)
    (m : TxMeta) (hv : isVotingTransaction tx = false)
    (hm : tx.meta = some m) :
    (m.fee = some 0 →
        (processTx st tx).priorityFees = st.priorityFees ∧
        (processTx st tx).totalNonVotingTransactions =
          st.totalNonVotingTransactions ∧
        ∀ c, m.computeUnitsConsumed = some c →
          (processTx st tx).computeUnits = st.computeUnits ++ [c]) ∧
    (m.fee = none → ∀ c, m.computeUnitsConsumed = some c →
        processTx st tx = { st with computeUnits := st.computeUnits ++ [c] }) := by
  constructor
  · intro hf
    have hdiv : ¬((0 : ℚ) / LAMPORTS_PER_SOL > 0) := by
      rw [LAMPORTS_PER_SOL]; norm_num
    refine ⟨?_, ?_, ?_⟩
    · cases hcu : m.computeUnitsConsumed <;>
        simp [processTx, hv, hm, hf, hcu, hdiv]
    · cases hcu : m.computeUnitsConsumed <;>
        simp [processTx, hv, hm, hf, hcu, hdiv]
    · intro c hcu
      simp [processTx, hv, hm, hf, hcu, hdiv]
  · intro hf c hcu
    simp [processTx, hv, hm, hf, hcu]

theorem zero_or_undefined_fee_asymmetry_witness :
    (processTx ⟨[], [], 0⟩
        { accountKeys := some ["abc"]
          meta := some { fee := some 0, computeUnitsConsumed := some 7 } }).computeUnits
      = [(7 : ℚ)] := by
  have h := zero_or_undefined_fee_asymmetry ⟨[], [], 0⟩
    { accountKeys := some ["abc"]
      meta := some { fee := some 0, computeUnitsConsumed := some 7 } }
    { fee := some 0, computeUnitsConsumed := some 7 }
    (by with_unfolding_all decide) rfl
  simpa using (h.1 rfl).2.2 7 rfl

/-- C2 counterexample: on the already-sorted fee series
`[0.001, 0.002, 0.002, 0.01]` the code's median is not `0.0015`
(= 3/2000): the even-length branch averages the two central elements
`0.002` and `0.002`. -/
theorem median_example_is_not_0_0015 :
    medianFeeOf [1/1000, 1/500, 1/500, 1/100] ≠ JsVal.num (3/2000) := by
  with_unfolding_all decide

/-- C2 (amended): on the already-sorted fee series
`[0.001, 0.002, 0.002, 0.01]` the batch statistics yield max = `0.01`,
mean = `0.00375`, median = `0.002`, and 95th percentile = `0.01`
(index `ceil(0.95*4)-1 = 3`). -/
theorem batch_stats_example :
    maxFeeOf [1/1000, 1/500, 1/500, 1/100] = JsVal.num (1/100) ∧
    averageFeeOf [1/1000, 1/500, 1/500, 1/100] = JsVal.num (3/800) ∧
    medianFeeOf [1/1000, 1/500, 1/500, 1/100] = JsVal.num (1/500) ∧
    percentile95FeeOf [1/1000, 1/500, 1/500, 1/100] = JsVal.num (1/100) := by
  refine ⟨?_, ?_, ?_, ?_⟩ <;> with_unfolding_all decide

/-- Reading a list at an in-range natural index yields the element. -/
theorem jsIndex_natCast (l : List ℚ) (n : ℕ) (h : n < l.length) :
    jsIndex l (n : ℤ) = JsVal.num (l.getD n 0) := by
  rw [jsIndex, if_pos (Int.ofNat_nonneg n), Int.toNat_ofNat]
  rw [List.get?_eq_get h, List.getD_eq_getElem?_getD, List.getElem?_eq_getElem h]
  rfl

/-- C3: on a non-empty ascending-sorted sequence and any percentile
`p ≤ 100` (the percentile scale), `calculatePercentile` returns the
element at index `clamp(ceil((p/100)*N) - 1, 0, N-1)`; on the empty
sequence it returns the sentinel `0`. -/
theorem calculatePercentile_clamped (arr : List ℚ) (p : ℚ)
    (hsorted : arr.Sorted (· ≤ ·)) (hne : arr ≠ []) (hp : p ≤ 100) :
    calculatePercentile arr p
      = JsVal.num (arr.getD
          (min (max (⌈p / 100 * (arr.length : ℚ)⌉ - 1) 0)
            ((arr.length : ℤ) - 1)).toNat 0) ∧
    calculatePercentile [] p = JsVal.num 0 := by
  have hN : 0 < arr.length := List.length_pos.mpr hne
  have hceil : ⌈p / 100 * (arr.length : ℚ)⌉ ≤ (arr.length : ℤ) := by
    rw [Int.ceil_le]
    push_cast
    have h1 : p / 100 ≤ 1 := by linarith
    calc p / 100 * (arr.length : ℚ)
        ≤ 1 * (arr.length : ℚ) :=
          mul_le_mul_of_nonneg_right h1 (Nat.cast_nonneg _)
      _ = (arr.length : ℚ) := one_mul _
  constructor
  · have hmax : max 0 (⌈p / 100 * (arr.length : ℚ)⌉ - 1)
        = (((max 0 (⌈p / 100 * (arr.length : ℚ)⌉ - 1)).toNat : ℕ) : ℤ) := by
      omega
    have hlt : (max 0 (⌈p / 100 * (arr.length : ℚ)⌉ - 1)).toNat < arr.length := by
      omega
    have hmin : (min (max (⌈p / 100 * (arr.length : ℚ)⌉ - 1) 0)
        ((arr.length : ℤ) - 1)).toNat
        = (max 0 (⌈p / 100 * (arr.length : ℚ)⌉ - 1)).toNat := by
      omega
    rw [calculatePercentile, if_neg (by omega), hmin, hmax]
    exact jsIndex_natCast arr _ hlt
  · rw [calculatePercentile]
    simp

theorem calculatePercentile_clamped_witness :
    calculatePercentile [1, 2, 3] 95 = JsVal.num 3 ∧
    calculatePercentile [] 95 = JsVal.num 0 := by
  have h := calculatePercentile_clamped [1, 2, 3] 95
    (by with_unfolding_all decide) (by simp) (by norm_num)
  refine ⟨?_, h.2⟩
  rw [h.1]
  with_unfolding_all decide

/-- C9: on a non-empty ascending-sorted sequence, the median computed for
the fee series and the one computed for the compute-unit series both
return the exact middle element for odd length and the arithmetic mean of
the two central elements for even length. -/
theorem median_central_elements (l : List ℚ) (hne : l ≠ [])
    (hsorted : l.Sorted (· ≤ ·)) :
    (l.length % 2 = 1 →
        medianFeeOf l = JsVal.num (l.getD (l.length / 2) 0) ∧
        medianCUOf l = JsVal.num (l.getD (l.length / 2) 0)) ∧
    (l.length % 2 = 0 →
        medianFeeOf l
          = JsVal.num ((l.getD (l.length / 2 - 1) 0 + l.getD (l.length / 2) 0) / 2) ∧
        medianCUOf l
          = JsVal.num ((l.getD (l.length / 2 - 1) 0 + l.getD (l.length / 2) 0) / 2)) := by
  have hN : 0 < l.length := List.length_pos.mpr hne
  have hsort : sortAsc l = l := List.Sorted.insertionSort_eq hsorted
  constructor
  · intro hodd
    have hcast : ((l.length : ℤ) / 2) = ((l.length / 2 : ℕ) : ℤ) := by omega
    have hlt : l.length / 2 < l.length := Nat.div_lt_self hN one_lt_two
    have hgoal : jsIndex l ((l.length : ℤ) / 2) = JsVal.num (l.getD (l.length / 2) 0) := by
      rw [hcast]
      exact jsIndex_natCast l _ hlt
    constructor
    · simp only [medianFeeOf, hsort]
      rw [if_neg (by omega)]
      exact hgoal
    · simp only [medianCUOf, hsort]
      rw [if_neg (by omega)]
      exact hgoal
  · intro heven
    have h2 : 2 ≤ l.length := by omega
    have hcast1 : ((l.length : ℤ) / 2 - 1) = ((l.length / 2 - 1 : ℕ) : ℤ) := by omega
    have hcast2 : ((l.length : ℤ) / 2) = ((l.length / 2 : ℕ) : ℤ) := by omega
    have hlt1 : l.length / 2 - 1 < l.length := by omega
    have hlt2 : l.length / 2 < l.length := Nat.div_lt_self hN one_lt_two
    have hgoal : jsDiv
        (jsAdd (jsIndex l ((l.length : ℤ) / 2 - 1)) (jsIndex l ((l.length : ℤ) / 2)))
        (JsVal.num 2)
        = JsVal.num ((l.getD (l.length / 2 - 1) 0 + l.getD (l.length / 2) 0) / 2) := by
      rw [hcast1, hcast2, jsIndex_natCast l _ hlt1, jsIndex_natCast l _ hlt2]
      norm_num [jsAdd, jsDiv]
    constructor
    · simp only [medianFeeOf, hsort]
      rw [if_pos heven]
      exact hgoal
    · simp only [medianCUOf, hsort]
      rw [if_pos heven]
      exact hgoal

theorem median_central_elements_witness :
    medianFeeOf [1, 2] = JsVal.num (3 / 2) ∧
    medianCUOf [1, 2] = JsVal.num (3 / 2) := by
  have h := (median_central_elements [1, 2] (by simp)
    (by with_unfolding_all decide)).2 (by with_unfolding_all decide)
  refine ⟨?_, ?_⟩
  · rw [h.1]; with_unfolding_all decide
  · rw [h.2]; with_unfolding_all decide

/-- C5: a window whose fee series is non-empty but whose compute-unit
series is empty is still emitted — the emission gate consults only the fee
series — and its compute-unit statistics degenerate: max compute units is
an out-of-bounds read (`undefined`), and average/median compute units are
`NaN` (from `0/0` and from arithmetic on out-of-bounds reads). -/
theorem emission_with_empty_cu_series (batchStartSlot : ℤ) (batchSize : ℕ)
    (fees : List ℚ) (cnt : ℕ) (price : ℚ) (hne : fees ≠ []) :
    skipEmission ⟨fees, [], cnt⟩ = false ∧
    (∀ cus cnt', skipEmission ⟨fees, cus, cnt'⟩ = false) ∧
    (mkSummary batchStartSlot batchSize ⟨fees, [], cnt⟩ price).maxCU
      = JsVal.undefined ∧
    (mkSummary batchStartSlot batchSize ⟨fees, [], cnt⟩ price).averageCU
      = JsVal.nan ∧
    (mkSummary batchStartSlot batchSize ⟨fees, [], cnt⟩ price).medianCU
      = JsVal.nan := by
  refine ⟨?_, fun cus cnt' => ?_, ?_, ?_, ?_⟩
  · simp [skipEmission, hne]
  · simp [skipEmission, hne]
  · simp only [mkSummary]
    with_unfolding_all decide
  · simp only [mkSummary]
    with_unfolding_all decide
  · simp only [mkSummary]
    with_unfolding_all decide

theorem emission_with_empty_cu_series_witness :
    (mkSummary 10 1 ⟨[1/2], [], 1⟩ 20).maxCU = JsVal.undefined :=
  (emission_with_empty_cu_series 10 1 [1/2] 1 20 (by simp)).2.2.1

/-- C1 (code bug): in a run over `env1` (latest slot 100, two windows of
two slots) whose first window is skipped for an empty fee series, the
single emitted summary comes from batch iteration 1, which fetched slots
98 and 97 — yet it records `start_slot = 100`, `end_slot = 99`, because
`batchStartSlot` is advanced only when a summary is emitted while the
fetch position always advances. -/
theorem recorded_window_diverges_from_fetched :
    (run cfg1 env1 .db (fun _ => true)).processed.map
        (fun p => (p.1, p.2.startSlot, p.2.endSlot)) = [(1, 100, 99)] ∧
    fetchedStartSlot env1.latestSlot cfg1.batchSize 1 = 98 ∧
    fetchedEndSlot env1.latestSlot cfg1.batchSize 1 = 97 ∧
    (100 : ℤ) ≠ 98 := by
  refine ⟨?_, ?_, ?_, ?_⟩ <;> with_unfolding_all decide

/-- C4 counterexample: with the flat-file (`csv`) sink, a failed write is
not survived: over `env2` (both windows emit when the sink is healthy), a
failure of the very first write ends the run with `sinkException` after
one summary, and the second window is never processed. -/
theorem csv_sink_failure_terminates_run :
    (run cfg2 env2 .csv (fun _ => false)).halt = Halt.sinkException ∧
    (run cfg2 env2 .csv (fun _ => false)).processed.length = 1 ∧
    (run cfg2 env2 .csv (fun _ => true)).processed.length = 2 ∧
    1 < cfg2.numSamples := by
  refine ⟨?_, ?_, ?_, ?_⟩ <;> with_unfolding_all decide

/-- In the `db` variant the sink write outcome is reported only through a
logging callback, so the run is the same function of the environment for
any two write-outcome assignments. -/
theorem runFrom_db_sink_independent (env : Env) (f g : ℕ → Bool) (batchSize : ℕ) :
    ∀ fuel k bss wi, runFrom env .db f batchSize fuel k bss wi
      = runFrom env .db g batchSize fuel k bss wi := by
  intro fuel
  induction fuel with
  | zero => intro k bss wi; rfl
  | succ n ih =>
    intro k bss wi
    simp only [runFrom]
    by_cases hprice : priceUsable (env.price k) = false
    · rw [if_pos hprice, if_pos hprice]
    · rw [if_neg hprice, if_neg hprice]
      by_cases hskip : skipEmission (scanWindow env.getBlock env.latestSlot (k * batchSize) batchSize) = true
      · rw [if_pos hskip, if_pos hskip]
        exact ih (k + 1) bss wi
      · rw [if_neg hskip, if_neg hskip]
        rw [ih (k + 1) (bss - batchSize) (wi + 1)]

/-- In the `csv` variant a run that ends normally consulted only
successful writes: write `wi + j` backed the `j`-th processed summary. -/
theorem runFrom_csv_halt_normal (env : Env) (f : ℕ → Bool) (batchSize : ℕ) :
    ∀ fuel k bss wi,
      (runFrom env .csv f batchSize fuel k bss wi).halt = Halt.normal →
      ∀ j, j < (runFrom env .csv f batchSize fuel k bss wi).processed.length →
        f (wi + j) = true := by
  intro fuel
  induction fuel with
  | zero =>
    intro k bss wi _ j hj
    simp [runFrom] at hj
  | succ n ih =>
    intro k bss wi hhalt j hj
    simp only [runFrom] at hhalt hj
    by_cases hprice : priceUsable (env.price k) = false
    · rw [if_pos hprice] at hhalt
      simp at hhalt
    · rw [if_neg hprice] at hhalt hj
      by_cases hskip : skipEmission (scanWindow env.getBlock env.latestSlot (k * batchSize) batchSize) = true
      · rw [if_pos hskip] at hhalt hj
        exact ih (k + 1) bss wi hhalt j hj
      · rw [if_neg hskip] at hhalt hj
        by_cases hw : f wi = true
        · rw [if_pos hw] at hhalt hj
          simp only [List.length_cons] at hj
          cases j with
          | zero => simpa using hw
          | succ j' =>
            have hrec := ih (k + 1) (bss - batchSize) (wi + 1) hhalt j' (by omega)
            have heq : wi + (j' + 1) = wi + 1 + j' := by omega
            rw [heq]
            exact hrec
        · rw [if_neg hw] at hhalt
          simp at hhalt

/-- Every processed summary carries a batch iteration index below the
start index plus the remaining fuel. -/
theorem runFrom_processed_indices (env : Env) (storage : Storage) (f : ℕ → Bool)
    (batchSize : ℕ) :
    ∀ fuel k bss wi p,
      p ∈ (runFrom env storage f batchSize fuel k bss wi).processed →
      p.1 < k + fuel := by
  cases storage with
  | db =>
    intro fuel
    induction fuel with
    | zero => intro k bss wi p hp; simp [runFrom] at hp
    | succ n ih =>
      intro k bss wi p hp
      simp only [runFrom] at hp
      by_cases hprice : priceUsable (env.price k) = false
      · rw [if_pos hprice] at hp
        simp at hp
      · rw [if_neg hprice] at hp
        by_cases hskip : skipEmission (scanWindow env.getBlock env.latestSlot (k * batchSize) batchSize) = true
        · rw [if_pos hskip] at hp
          have := ih (k + 1) bss wi p hp
          omega
        · rw [if_neg hskip] at hp
          simp only [List.mem_cons] at hp
          rcases hp with rfl | hp
          · simp
          · have := ih (k + 1) (bss - batchSize) (wi + 1) p hp
            omega
  | csv =>
    intro fuel
    induction fuel with
    | zero => intro k bss wi p hp; simp [runFrom] at hp
    | succ n ih =>
      intro k bss wi p hp
      simp only [runFrom] at hp
      by_cases hprice : priceUsable (env.price k) = false
      · rw [if_pos hprice] at hp
        simp at hp
      · rw [if_neg hprice] at hp
        by_cases hskip : skipEmission (scanWindow env.getBlock env.latestSlot (k * batchSize) batchSize) = true
        · rw [if_pos hskip] at hp
          have := ih (k + 1) bss wi p hp
          omega
        · rw [if_neg hskip] at hp
          by_cases hw : f wi = true
          · rw [if_pos hw] at hp
            simp only [List.mem_cons] at hp
            rcases hp with rfl | hp
            · simp
            · have := ih (k + 1) (bss - batchSize) (wi + 1) p hp
              omega
          · rw [if_neg hw] at hp
            simp only [List.mem_singleton] at hp
            subst hp
            simp

/-- A run whose price oracle answers usably for the first `n` iterations
from `k` and unusably at iteration `k + n` halts with `priceFailure`, and
its processed summaries are exactly those of the run truncated to `n`
iterations (provided the sink never aborts the run earlier). -/
theorem runFrom_price_truncates (env : Env) (storage : Storage) (f : ℕ → Bool)
    (batchSize : ℕ)
    (hsink : storage = Storage.db ∨ ∀ j, f j = true) :
    ∀ n fuel k bss wi,
      (∀ j, k ≤ j → j < k + n → priceUsable (env.price j) = true) →
      priceUsable (env.price (k + n)) = false →
      n < fuel →
      (runFrom env storage f batchSize fuel k bss wi).halt = Halt.priceFailure ∧
      (runFrom env storage f batchSize fuel k bss wi).processed
        = (runFrom env storage f batchSize n k bss wi).processed := by
  intro n
  induction n with
  | zero =>
    intro fuel k bss wi hgood hbad hfuel
    obtain ⟨m, rfl⟩ : ∃ m, fuel = m + 1 := ⟨fuel - 1, by omega⟩
    rw [Nat.add_zero] at hbad
    constructor
    · simp [runFrom, hbad]
    · simp [runFrom, hbad]
  | succ m ih =>
    intro fuel k bss wi hgood hbad hfuel
    obtain ⟨fm, rfl⟩ : ∃ fm, fuel = fm + 1 := ⟨fuel - 1, by omega⟩
    have hk : priceUsable (env.price k) = true := hgood k le_rfl (by omega)
    have hk' : ¬priceUsable (env.price k) = false := by simp [hk]
    have hgood' : ∀ j, k + 1 ≤ j → j < k + 1 + m → priceUsable (env.price j) = true :=
      fun j h1 h2 => hgood j (by omega) (by omega)
    have hbad' : priceUsable (env.price (k + 1 + m)) = false := by
      have heq : k + 1 + m = k + (m + 1) := by omega
      rw [heq]
      exact hbad
    simp only [runFrom]
    rw [if_neg hk', if_neg hk']
    by_cases hskip : skipEmission (scanWindow env.getBlock env.latestSlot (k * batchSize) batchSize) = true
    · rw [if_pos hskip, if_pos hskip]
      exact ih fm (k + 1) bss wi hgood' hbad' (by omega)
    · rw [if_neg hskip, if_neg hskip]
      cases storage with
      | db =>
        have h := ih fm (k + 1) (bss - batchSize) (wi + 1) hgood' hbad' (by omega)
        exact ⟨h.1, by simp [h.2]⟩
      | csv =>
        have hf : f wi = true := by
          rcases hsink with h | h
          · exact absurd h (by simp)
          · exact h wi
        rw [if_pos hf, if_pos hf]
        have h := ih fm (k + 1) (bss - batchSize) (wi + 1) hgood' hbad' (by omega)
        exact ⟨h.1, by simp [h.2]⟩

/-- C4 (amended): under the table (`db`) variant the run's entire outcome
is independent of sink write results — no sink write failure terminates
the run or changes which windows are processed; under the flat-file
(`csv`) variant a run ends normally only if every write that backed a
processed summary succeeded, i.e. any sink write failure terminates the
run. -/
theorem sink_failure_db_continues_csv_halts (cfg : Config) (env : Env)
    (f g : ℕ → Bool) :
    run cfg env .db f = run cfg env .db g ∧
    ((run cfg env .csv f).halt = Halt.normal →
      ∀ j, j < (run cfg env .csv f).processed.length → f j = true) := by
  constructor
  · exact runFrom_db_sink_independent env f g cfg.batchSize cfg.numSamples 0
      env.latestSlot 0
  · intro h j hj
    have hres := runFrom_csv_halt_normal env f cfg.batchSize cfg.numSamples 0
      env.latestSlot 0 h j hj
    simpa using hres

theorem sink_failure_db_continues_csv_halts_witness :
    run cfg2 env2 .db (fun _ => false) = run cfg2 env2 .db (fun _ => true) ∧
    (fun _ => true : ℕ → Bool) 0 = true := by
  constructor
  · exact (sink_failure_db_continues_csv_halts cfg2 env2
      (fun _ => false) (fun _ => true)).1
  · exact (sink_failure_db_continues_csv_halts cfg2 env2
      (fun _ => true) (fun _ => true)).2
      (by with_unfolding_all decide) 0 (by with_unfolding_all decide)

/-- C6: if the price oracle's answer for batch iteration `k` is a failure
or unusable, while all earlier iterations had usable prices (and the sink
did not abort the run earlier), the run halts with `priceFailure`: no
summary is emitted for window `k` or any later window, and the processed
summaries are exactly those of the run truncated to the first `k`
windows. -/
theorem price_failure_halts_run (cfg : Config) (env : Env) (storage : Storage)
    (sinkOk : ℕ → Bool) (k : ℕ)
    (hk : k < cfg.numSamples)
    (hbad : priceUsable (env.price k) = false)
    (hgood : ∀ j, j < k → priceUsable (env.price j) = true)
    (hsink : storage = Storage.db ∨ ∀ j, sinkOk j = true) :
    (run cfg env storage sinkOk).halt = Halt.priceFailure ∧
    (run cfg env storage sinkOk).processed
      = (run { cfg with numSamples := k } env storage sinkOk).processed ∧
    ∀ p ∈ (run cfg env storage sinkOk).processed, p.1 < k := by
  have h := runFrom_price_truncates env storage sinkOk cfg.batchSize hsink k
    cfg.numSamples 0 env.latestSlot 0
    (fun j h1 h2 => hgood j (by omega)) (by simpa using hbad) hk
  refine ⟨h.1, h.2, ?_⟩
  intro p hp
  simp only [run] at hp
  rw [h.2] at hp
  have := runFrom_processed_indices env storage sinkOk cfg.batchSize k 0
    env.latestSlot 0 p hp
  omega

theorem price_failure_halts_run_witness :
    (run cfg2 env3 .db (fun _ => true)).halt = Halt.priceFailure :=
  (price_failure_halts_run cfg2 env3 .db (fun _ => true) 1
    (by with_unfolding_all decide)
    (by with_unfolding_all decide)
    (fun j hj => by
      have h0 : j = 0 := by omega
      subst h0
      with_unfolding_all decide)
    (Or.inl rfl)).1

end SolanaFeeReport
